import Mathlib

/-!
Verification of the converser package's message, canister, event and
invocable models, shallowly embedded from `src/sources/converser/`.

Python types are modelled as follows: enumerations become inductives,
frozen dataclasses become structures, `Absential[T]` (the three-state
optional marker) becomes an explicit two-constructor inductive, ordered
sequences become lists, string-keyed mappings become association lists
with distinct keys, and `datetime` instants become an integer epoch
reading plus an optional timezone record.  The `produce` factories take
the clock reading (`clock`) as an explicit argument standing for the
value `datetime.datetime.now(timezone.utc)` would observe at call time.
-/

namespace Converser

/-- Role enumeration from `canisters.py`: `User, Assistant, Supervisor,
Document, Invocation, Result`. -/
inductive Role where
  | User
  | Assistant
  | Supervisor
  | Document
  | Invocation
  | Result
deriving DecidableEq, Repr

/-- The absence marker (`__.Absential` / `__.absent`): a field is either
explicitly absent or holds a present value. -/
inductive Absential (α : Type) where
  | absent
  | present (value : α)
deriving DecidableEq, Repr

/-- `__.is_absent` from the absence-marker library. -/
def Absential.is_absent {α : Type} : Absential α → Bool
  | .absent => true
  | .present _ => false

/-- Timezone record; `datetime.timezone.utc` is offset zero. -/
structure TimezoneInfo where
  offsetMinutes : Int
deriving DecidableEq, Repr

/-- `datetime.timezone.utc`. -/
def utcTimezone : TimezoneInfo := { offsetMinutes := 0 }

/-- A `datetime.datetime` value: an instant (microseconds since epoch)
together with its optional timezone. -/
structure DateTime where
  epochMicros : Int
  tzinfo : Option TimezoneInfo
deriving DecidableEq, Repr

/-- `datetime.datetime.now(datetime.timezone.utc)` at a given clock
reading: the current instant, UTC-zoned. -/
def datetimeNowUtc (clock : Int) : DateTime :=
  { epochMicros := clock, tzinfo := some utcTimezone }

/-- Opaque value domain standing for Python `Any` payloads stored in
string-keyed mappings; the code never inspects these values. -/
structure AnyValue where
  code : Nat
deriving DecidableEq, Repr

/-- `TextContent` from `canisters.py`: `text: str`,
`mime_type: str = 'text/plain'`. -/
structure TextContent where
  text : String
  mime_type : String := "text/plain"
deriving DecidableEq, Repr

/-- `PictureContent` from `canisters.py`: `content_id: str`,
`mime_type: str`, `source_location: Absential[str] = absent`. -/
structure PictureContent where
  content_id : String
  mime_type : String
  source_location : Absential String := .absent
deriving DecidableEq, Repr

/-- The closed `Content` family: `TextContent` and `PictureContent` are
the two concrete variants in `canisters.py`. -/
inductive Content where
  | textC (c : TextContent)
  | pictureC (c : PictureContent)
deriving DecidableEq, Repr

/-- `mime_type` field of the `Content` protocol. -/
def Content.mime_type : Content → String
  | .textC c => c.mime_type
  | .pictureC c => c.mime_type

/-- Python `tuple(seq)`: iterating an ordered sequence yields its
elements in order, so on lists it is the identity coercion. -/
def tupleOf {α : Type} (xs : List α) : List α := xs

/-- One insertion step of building a Python `dict`: a repeated key
overwrites in place, a fresh key appends. -/
def dictUpsert {V : Type} : List (String × V) → String → V → List (String × V)
  | [], k, v => [(k, v)]
  | (k', v') :: rest, k, v =>
      if k' = k then (k, v) :: rest else (k', v') :: dictUpsert rest k v

/-- `immut.Dictionary(mapping)`: builds an immutable dictionary from the
mapping's items in iteration order. -/
def dictionaryOf {V : Type} (m : List (String × V)) : List (String × V) :=
  m.foldl (fun d kv => dictUpsert d kv.1 kv.2) []

/-- `UserMessage` from `messages.py`. -/
structure UserMessage where
  role : Role
  timestamp : DateTime
  content : List Content
deriving DecidableEq, Repr

/-- `UserMessage.produce` from `messages.py` lines 42-55. -/
def UserMessage.produce (content : List Content)
    (timestamp : Absential DateTime) (clock : Int) : UserMessage :=
  let ts := match timestamp with
    | .absent => datetimeNowUtc clock
    | .present t => t
  { role := Role.User, timestamp := ts, content := tupleOf content }

/-- `AssistantMessage` from `messages.py`. -/
structure AssistantMessage where
  role : Role
  timestamp : DateTime
  content : Absential (List Content)
deriving DecidableEq, Repr

/-- `AssistantMessage.produce` from `messages.py` lines 65-83. -/
def AssistantMessage.produce (content : Absential (List Content))
    (timestamp : Absential DateTime) (clock : Int) : AssistantMessage :=
  let ts := match timestamp with
    | .absent => datetimeNowUtc clock
    | .present t => t
  let content_tuple := match content with
    | .present c => Absential.present (tupleOf c)
    | .absent => Absential.absent
  { role := Role.Assistant, timestamp := ts, content := content_tuple }

/-- `SupervisorMessage` from `messages.py`. -/
structure SupervisorMessage where
  role : Role
  timestamp : DateTime
  content : List Content
  cache_control : Absential (List (String × AnyValue))
deriving DecidableEq, Repr

/-- `SupervisorMessage.produce` from `messages.py` lines 94-116. -/
def SupervisorMessage.produce (content : List Content)
    (cache_control : Absential (List (String × AnyValue)))
    (timestamp : Absential DateTime) (clock : Int) : SupervisorMessage :=
  let ts := match timestamp with
    | .absent => datetimeNowUtc clock
    | .present t => t
  let cache_dict := match cache_control with
    | .present m => Absential.present (dictionaryOf m)
    | .absent => Absential.absent
  { role := Role.Supervisor, timestamp := ts,
    content := tupleOf content, cache_control := cache_dict }

/-- `DocumentMessage` from `messages.py`. -/
structure DocumentMessage where
  role : Role
  timestamp : DateTime
  content : List Content
  document_id : String
deriving DecidableEq, Repr

/-- `DocumentMessage.produce` from `messages.py` lines 127-142. -/
def DocumentMessage.produce (document_id : String) (content : List Content)
    (timestamp : Absential DateTime) (clock : Int) : DocumentMessage :=
  let ts := match timestamp with
    | .absent => datetimeNowUtc clock
    | .present t => t
  { role := Role.Document, timestamp := ts,
    content := tupleOf content, document_id := document_id }

/-- `InvocationMessage` from `messages.py`. -/
structure InvocationMessage where
  role : Role
  timestamp : DateTime
  invocation_id : String
  name : String
  arguments : List (String × AnyValue)
deriving DecidableEq, Repr

/-- `InvocationMessage.produce` from `messages.py` lines 154-171. -/
def InvocationMessage.produce (invocation_id : String) (name : String)
    (arguments : List (String × AnyValue))
    (timestamp : Absential DateTime) (clock : Int) : InvocationMessage :=
  let ts := match timestamp with
    | .absent => datetimeNowUtc clock
    | .present t => t
  { role := Role.Invocation, timestamp := ts, invocation_id := invocation_id,
    name := name, arguments := dictionaryOf arguments }

/-- `ResultMessage` from `messages.py`. -/
structure ResultMessage where
  role : Role
  timestamp : DateTime
  invocation_id : String
  content : List Content
  error : Absential String
deriving DecidableEq, Repr

/-- `ResultMessage.produce` from `messages.py` lines 183-200. -/
def ResultMessage.produce (invocation_id : String) (content : List Content)
    (error : Absential String)
    (timestamp : Absential DateTime) (clock : Int) : ResultMessage :=
  let ts := match timestamp with
    | .absent => datetimeNowUtc clock
    | .present t => t
  { role := Role.Result, timestamp := ts, invocation_id := invocation_id,
    content := tupleOf content, error := error }

/-- `MessageAllocationEvent` from `events.py`. -/
structure MessageAllocationEvent where
  message_id : String
deriving DecidableEq, Repr

/-- `MessageProgressEvent` from `events.py`. -/
structure MessageProgressEvent where
  message_id : String
  chunk : String
deriving DecidableEq, Repr

/-- `MessageUpdateEvent` from `events.py`. -/
structure MessageUpdateEvent where
  message_id : String
deriving DecidableEq, Repr

/-- `MessageCompletionEvent` from `events.py`. -/
structure MessageCompletionEvent where
  message_id : String
deriving DecidableEq, Repr

/-- `MessageAbortEvent` from `events.py`. -/
structure MessageAbortEvent where
  message_id : String
  error : String
deriving DecidableEq, Repr

/-- `ConversationEvent` union from `events.py` lines 65-71. -/
inductive ConversationEvent where
  | allocationEv (e : MessageAllocationEvent)
  | progressEv (e : MessageProgressEvent)
  | updateEv (e : MessageUpdateEvent)
  | completionEv (e : MessageCompletionEvent)
  | abortEv (e : MessageAbortEvent)
deriving DecidableEq, Repr

/-- Whether an event is terminal (completion or abort). -/
def ConversationEvent.isTerminal : ConversationEvent → Bool
  | .completionEv _ => true
  | .abortEv _ => true
  | _ => false

/-- Whether an event is an abort event. -/
def ConversationEvent.isAbort : ConversationEvent → Bool
  | .abortEv _ => true
  | _ => false

/-- Whether an event is a completion event. -/
def ConversationEvent.isCompletion : ConversationEvent → Bool
  | .completionEv _ => true
  | _ => false

/-- The non-terminal part of a legal event trace: the allocation event
followed by the progress events (one per chunk) and the update
events. -/
def traceBody (mid : String) (chunks : List String) (updates : Nat) :
    List ConversationEvent :=
  ConversationEvent.allocationEv { message_id := mid } ::
    (chunks.map (fun c =>
        ConversationEvent.progressEv { message_id := mid, chunk := c }) ++
      List.replicate updates
        (ConversationEvent.updateEv { message_id := mid }))

/-- The terminal event of a stream: completion on success, abort (with
the error description) on failure. -/
def terminalEventOf (mid : String) (outcome : Absential String) :
    ConversationEvent :=
  match outcome with
  | .absent => ConversationEvent.completionEv { message_id := mid }
  | .present e =>
      ConversationEvent.abortEv { message_id := mid, error := e }

/-- Modelled from the spec: no streaming emitter is implemented under
`src/` (`events.py` only declares the event types).  Per spec section 3,
the legal event sequence for one `message_id` is
`Allocation, Progress*, Update*, (Completion | Abort)`, where a failure
outcome (a present error description) terminates the stream with the
single `Abort` event and a success outcome with the single `Completion`
event.  This generator produces exactly the traces of that grammar. -/
def legalTrace (mid : String) (chunks : List String) (updates : Nat)
    (outcome : Absential String) : List ConversationEvent :=
  traceBody mid chunks updates ++ [terminalEventOf mid outcome]

/-- `Invoker` from `invocables.py`: the async `invocable` callable is
opaque data (modelled by an identifier), and the `ensemble`
back-reference is lookup-only, modelled by the owning ensemble's name. -/
structure Invoker where
  name : String
  invocableId : Nat
  arguments_schema : List (String × AnyValue)
  ensembleName : String
deriving DecidableEq, Repr

/-- `Ensemble` from `invocables.py`: named group of invokers keyed by
name, with configuration and an optional connection resource. -/
structure Ensemble where
  name : String
  invokers : List (String × Invoker)
  configuration : List (String × AnyValue)
  connection : Absential AnyValue
deriving DecidableEq, Repr

/-- `InvokerRegistry` state: the registered ensembles in registration
order. -/
structure InvokerRegistry where
  ensembles : List Ensemble
deriving DecidableEq, Repr

/-- Flattened by-name lookup across a list of ensembles. -/
def accessInvokerIn : List Ensemble → String → Absential Invoker
  | [], _ => .absent
  | e :: rest, name =>
      match e.invokers.find? (fun kv => kv.1 == name) with
      | some kv => .present kv.2
      | none => accessInvokerIn rest name

/-- Modelled from the spec: `InvokerRegistry.access_invoker` is declared
abstract in `invocables.py` (lines 76-78) with no concrete
implementation under `src/`.  Per spec sections 3 and 4.4 it performs a
flattened by-name lookup across all registered ensembles and returns
the absence marker, never a raised fault, when the name is unknown. -/
def InvokerRegistry.access_invoker (reg : InvokerRegistry)
    (name : String) : Absential Invoker :=
  accessInvokerIn reg.ensembles name

/-- All invoker names registered in a registry. -/
def InvokerRegistry.registeredNames (reg : InvokerRegistry) : List String :=
  reg.ensembles.flatMap (fun e => e.invokers.map Prod.fst)

/-- The fault raised by a mutation attempt on an immutable instance. -/
inductive MutationFault where
  | attributeImmutability (field : String)
deriving DecidableEq, Repr

/-- Modelled from the spec: the immutable-dataclass machinery
(`immut.DataclassObject` / `immut.DataclassProtocol`, imported through
the package's `__` module) is not under `src/`.  Per the spec, mutation
attempts on a constructed instance must fail, not silently rebind:
attribute assignment raises a fault and the instance is unchanged.  The
operation returns the fault together with the post-attempt instance. -/
def immutSetattr {α β : Type} (obj : α) (field : String) (_value : β) :
    MutationFault × α :=
  (MutationFault.attributeImmutability field, obj)

/-- Modelled from the spec: attribute deletion on an immutable instance
likewise raises a fault and leaves the instance unchanged. -/
def immutDelattr {α : Type} (obj : α) (field : String) :
    MutationFault × α :=
  (MutationFault.attributeImmutability field, obj)

/-- Hash combination step used by the modelled field-tuple hash. -/
def combineHash (h1 h2 : Nat) : Nat := (h1 * 1000003 + h2) % 2 ^ 61

/-- Deterministic string hash used by the modelled field-tuple hash. -/
def stringHashPy (s : String) : Nat :=
  s.foldl (fun h c => (h * 31 + c.toNat) % 2 ^ 61) 5381

/-- Index of a role within the enumeration. -/
def Role.index : Role → Nat
  | .User => 0
  | .Assistant => 1
  | .Supervisor => 2
  | .Document => 3
  | .Invocation => 4
  | .Result => 5

/-- Hash of a timezone record. -/
def TimezoneInfo.hashPy (t : TimezoneInfo) : Nat :=
  t.offsetMinutes.natAbs * 2 + (if t.offsetMinutes < 0 then 1 else 0)

/-- Hash of a datetime value. -/
def DateTime.hashPy (t : DateTime) : Nat :=
  combineHash
    (t.epochMicros.natAbs * 2 + (if t.epochMicros < 0 then 1 else 0))
    (match t.tzinfo with
      | none => 3
      | some tz => combineHash 5 tz.hashPy)

/-- Hash of an optionally-present field given a hash for the value. -/
def Absential.hashWith {α : Type} (f : α → Nat) : Absential α → Nat
  | .absent => 11
  | .present v => combineHash 13 (f v)

/-- Modelled from the spec: structural hashing generated by the frozen
dataclass machinery (`immut.DataclassObject`, not under `src/`) — the
hash of a `TextContent` is a function of its field tuple alone. -/
def TextContent.hashPy (c : TextContent) : Nat :=
  combineHash (stringHashPy c.text) (stringHashPy c.mime_type)

/-- Hash of a `PictureContent` as a function of its field tuple. -/
def PictureContent.hashPy (c : PictureContent) : Nat :=
  combineHash (stringHashPy c.content_id)
    (combineHash (stringHashPy c.mime_type)
      (c.source_location.hashWith stringHashPy))

/-- Hash of a `Content` value. -/
def Content.hashPy : Content → Nat
  | .textC c => combineHash 17 c.hashPy
  | .pictureC c => combineHash 19 c.hashPy

/-- Hash of a list of values given a hash for the elements. -/
def listHashWith {α : Type} (f : α → Nat) (l : List α) : Nat :=
  l.foldl (fun h a => combineHash h (f a)) 97

/-- Modelled from the spec: structural hashing for `UserMessage` — a
function of the field tuple `(role, timestamp, content)` alone. -/
def UserMessage.hashPy (m : UserMessage) : Nat :=
  combineHash m.role.index
    (combineHash m.timestamp.hashPy (listHashWith Content.hashPy m.content))

/-- Modelled from the spec: structural equality generated by the frozen
dataclass machinery — `TextContent` instances compare by their field
tuples. -/
def TextContent.eqPy (a b : TextContent) : Bool :=
  decide (a.text = b.text) && decide (a.mime_type = b.mime_type)

/-- Modelled from the spec: structural equality for `UserMessage` —
instances compare by their field tuples. -/
def UserMessage.eqPy (a b : UserMessage) : Bool :=
  decide (a.role = b.role) && decide (a.timestamp = b.timestamp) &&
    decide (a.content = b.content)

/-- `dictUpsert` with a key fresh for the dictionary appends the pair. -/
theorem dictUpsert_of_fresh {V : Type} (d : List (String × V)) (k : String)
    (v : V) (h : ∀ kv ∈ d, kv.1 ≠ k) : dictUpsert d k v = d ++ [(k, v)] := by
  induction d with
  | nil => rfl
  | cons hd tl ih =>
      obtain ⟨k', v'⟩ := hd
      have hk : k' ≠ k := h (k', v') (by simp)
      simp only [dictUpsert, if_neg hk, List.cons_append, List.cons.injEq,
        true_and]
      exact ih (fun kv hm => h kv (by simp [hm]))

/-- Folding `dictUpsert` over pairs with distinct keys, all fresh for the
accumulator, appends the pairs in order. -/
theorem dictionaryOf_go {V : Type} (m : List (String × V)) :
    ∀ acc : List (String × V), (m.map Prod.fst).Nodup →
      (∀ kv ∈ m, ∀ kv' ∈ acc, kv'.1 ≠ kv.1) →
      m.foldl (fun d kv => dictUpsert d kv.1 kv.2) acc = acc ++ m := by
  induction m with
  | nil => intro acc _ _; simp
  | cons hd tl ih =>
      intro acc hnd hdisj
      have hfresh : ∀ kv ∈ acc, kv.1 ≠ hd.1 :=
        fun kv hkv => hdisj hd (by simp) kv hkv
      have hstep : dictUpsert acc hd.1 hd.2 = acc ++ [hd] := by
        have := dictUpsert_of_fresh acc hd.1 hd.2 hfresh
        simpa using this
      have hnd2 : (hd.1 :: tl.map Prod.fst).Nodup := by
        simpa only [List.map_cons] using hnd
      have hnd' : (tl.map Prod.fst).Nodup := hnd2.of_cons
      have hhd_tl : ∀ kv ∈ tl, hd.1 ≠ kv.1 := by
        intro kv hkv
        have hnm := (List.nodup_cons.mp hnd2).1
        intro heq
        exact hnm (heq ▸ List.mem_map_of_mem Prod.fst hkv)
      have hdisj' : ∀ kv ∈ tl, ∀ kv' ∈ acc ++ [hd], kv'.1 ≠ kv.1 := by
        intro kv hkv kv' hkv'
        rcases List.mem_append.mp hkv' with hacc | hsing
        · exact hdisj kv (by simp [hkv]) kv' hacc
        · have : kv' = hd := by simpa using hsing
          subst this
          exact hhd_tl kv hkv
      calc (hd :: tl).foldl (fun d kv => dictUpsert d kv.1 kv.2) acc
          = tl.foldl (fun d kv => dictUpsert d kv.1 kv.2) (acc ++ [hd]) := by
            simp [List.foldl_cons, hstep]
        _ = (acc ++ [hd]) ++ tl := ih (acc ++ [hd]) hnd' hdisj'
        _ = acc ++ hd :: tl := by simp

/-- `immut.Dictionary` built from a mapping with distinct keys holds the
same key-value pairs in the same order. -/
theorem dictionaryOf_eq_self {V : Type} (m : List (String × V))
    (h : (m.map Prod.fst).Nodup) : dictionaryOf m = m := by
  have := dictionaryOf_go m [] h (by intro kv _ kv' hkv'; simp at hkv')
  simpa [dictionaryOf] using this

/-- Flattened lookup over ensembles none of which registers the name
yields the absence marker. -/
theorem accessInvokerIn_eq_absent (es : List Ensemble) (name : String)
    (h : ∀ e ∈ es, name ∉ e.invokers.map Prod.fst) :
    accessInvokerIn es name = .absent := by
  induction es with
  | nil => rfl
  | cons e rest ih =>
      have h1 : name ∉ e.invokers.map Prod.fst := h e (by simp)
      have hfind : e.invokers.find? (fun kv => kv.1 == name) = none := by
        apply List.find?_eq_none.mpr
        intro kv hkv
        simp only [beq_iff_eq]
        intro heq
        exact h1 (heq ▸ List.mem_map_of_mem Prod.fst hkv)
      simp only [accessInvokerIn, hfind]
      exact ih (fun e' he' => h e' (by simp [he']))

/-- Concrete UTC instant used in closed statements. -/
def dt0 : DateTime := { epochMicros := 0, tzinfo := some utcTimezone }

/-- C1: every Message variant's `produce` factory returns an instance
whose `role` is the variant's fixed Role value — User, Assistant,
Supervisor, Document, Invocation and Result respectively — for every
valid field combination. -/
theorem produce_role_fixed (c : List Content)
    (ac : Absential (List Content))
    (cc : Absential (List (String × AnyValue)))
    (did iid nm : String) (args : List (String × AnyValue))
    (err : Absential String) (ts : Absential DateTime) (clock : Int) :
    (UserMessage.produce c ts clock).role = Role.User ∧
    (AssistantMessage.produce ac ts clock).role = Role.Assistant ∧
    (SupervisorMessage.produce c cc ts clock).role = Role.Supervisor ∧
    (DocumentMessage.produce did c ts clock).role = Role.Document ∧
    (InvocationMessage.produce iid nm args ts clock).role = Role.Invocation ∧
    (ResultMessage.produce iid c err ts clock).role = Role.Result :=
  ⟨rfl, rfl, rfl, rfl, rfl, rfl⟩

/-- C2 counterexample: direct construction of a `UserMessage` with role
`Assistant` succeeds — the constructor performs no role validation, so
an instance with a role mismatched to its variant exists. -/
theorem mismatched_role_construction_succeeds :
    (UserMessage.mk Role.Assistant dt0 []).role = Role.Assistant ∧
    Role.Assistant ≠ Role.User :=
  ⟨rfl, by decide⟩

/-- C2 amended: direct construction of a concrete Message variant does
not validate `role` — it accepts any Role value and stores it
unchanged; the matching-role invariant holds only for instances built
through the `produce` factories. -/
theorem construction_stores_given_role (r : Role) (t : DateTime)
    (c : List Content) (ac : Absential (List Content))
    (cc : Absential (List (String × AnyValue)))
    (did iid nm : String) (args : List (String × AnyValue))
    (err : Absential String) :
    (UserMessage.mk r t c).role = r ∧
    (AssistantMessage.mk r t ac).role = r ∧
    (SupervisorMessage.mk r t c cc).role = r ∧
    (DocumentMessage.mk r t c did).role = r ∧
    (InvocationMessage.mk r t iid nm args).role = r ∧
    (ResultMessage.mk r t iid c err).role = r :=
  ⟨rfl, rfl, rfl, rfl, rfl, rfl⟩

/-- C3: mutation attempts (attribute assignment or deletion) on
constructed Canister/Message/Content/Event instances fail with an
immutability fault and leave the instance's fields unchanged. -/
theorem immutable_instances_reject_mutation {β : Type}
    (um : UserMessage) (sm : SupervisorMessage) (tc : TextContent)
    (ev : MessageAllocationEvent) (field : String) (v : β) :
    immutSetattr um field v =
      (MutationFault.attributeImmutability field, um) ∧
    immutDelattr um field =
      (MutationFault.attributeImmutability field, um) ∧
    immutSetattr sm field v =
      (MutationFault.attributeImmutability field, sm) ∧
    immutSetattr tc field v =
      (MutationFault.attributeImmutability field, tc) ∧
    immutSetattr ev field v =
      (MutationFault.attributeImmutability field, ev) ∧
    immutDelattr ev field =
      (MutationFault.attributeImmutability field, ev) :=
  ⟨rfl, rfl, rfl, rfl, rfl, rfl⟩

/-- C4: every `produce` call omitting `timestamp` stores the UTC-zoned
instant observed at the time of the call, and across two sequential
calls (the later clock reading at least the earlier) the later
timestamp is greater than or equal to the earlier one. -/
theorem produce_default_timestamp_utc_monotone (c : List Content)
    (ac : Absential (List Content))
    (cc : Absential (List (String × AnyValue)))
    (did iid nm : String) (args : List (String × AnyValue))
    (err : Absential String) (t1 t2 : Int) (h : t1 ≤ t2) :
    (UserMessage.produce c .absent t1).timestamp = datetimeNowUtc t1 ∧
    (AssistantMessage.produce ac .absent t1).timestamp = datetimeNowUtc t1 ∧
    (SupervisorMessage.produce c cc .absent t1).timestamp
      = datetimeNowUtc t1 ∧
    (DocumentMessage.produce did c .absent t1).timestamp
      = datetimeNowUtc t1 ∧
    (InvocationMessage.produce iid nm args .absent t1).timestamp
      = datetimeNowUtc t1 ∧
    (ResultMessage.produce iid c err .absent t1).timestamp
      = datetimeNowUtc t1 ∧
    (UserMessage.produce c .absent t1).timestamp.tzinfo
      = some utcTimezone ∧
    (UserMessage.produce c .absent t1).timestamp.epochMicros ≤
      (UserMessage.produce c .absent t2).timestamp.epochMicros :=
  ⟨rfl, rfl, rfl, rfl, rfl, rfl, rfl, h⟩

/-- C4 witness at a concrete pair of sequential clock readings. -/
theorem produce_default_timestamp_utc_monotone_witness :
    (UserMessage.produce [] .absent 0).timestamp = datetimeNowUtc 0 ∧
    (UserMessage.produce [] .absent 0).timestamp.epochMicros ≤
      (UserMessage.produce [] .absent 1).timestamp.epochMicros := by
  have h := produce_default_timestamp_utc_monotone [] .absent .absent
    "d" "i" "n" [] .absent 0 1 (by decide)
  exact ⟨h.1, h.2.2.2.2.2.2.2⟩

/-- C5: a `produce` call omitting an optional non-timestamp field
(Assistant content, Supervisor cache_control, Result error) constructs
the instance with the absence marker for that field, never a
substituted default. -/
theorem produce_preserves_absence (c : List Content) (iid : String)
    (ts : Absential DateTime) (clock : Int) :
    (AssistantMessage.produce .absent ts clock).content
      = Absential.absent ∧
    (SupervisorMessage.produce c .absent ts clock).cache_control
      = Absential.absent ∧
    (ResultMessage.produce iid c .absent ts clock).error
      = Absential.absent :=
  ⟨rfl, rfl, rfl⟩

/-- C6: a `produce` call supplying a content sequence stores it as a
tuple with the same elements in the same order, and a call supplying an
arguments or cache_control mapping (distinct keys) stores it as an
immutable dictionary with the same key-value pairs. -/
theorem produce_coerces_containers (c : List Content) (iid nm : String)
    (args cc : List (String × AnyValue)) (ts : Absential DateTime)
    (clock : Int) (hargs : (args.map Prod.fst).Nodup)
    (hcc : (cc.map Prod.fst).Nodup) :
    (UserMessage.produce c ts clock).content = c ∧
    (SupervisorMessage.produce c (.present cc) ts clock).content = c ∧
    (InvocationMessage.produce iid nm args ts clock).arguments = args ∧
    (SupervisorMessage.produce c (.present cc) ts clock).cache_control
      = Absential.present cc := by
  refine ⟨rfl, rfl, ?_, ?_⟩
  · show dictionaryOf args = args
    exact dictionaryOf_eq_self args hargs
  · show Absential.present (dictionaryOf cc) = Absential.present cc
    rw [dictionaryOf_eq_self cc hcc]

/-- C6 witness at a concrete content list and two-entry mapping. -/
theorem produce_coerces_containers_witness :
    (InvocationMessage.produce "i" "n"
        [("a", AnyValue.mk 1), ("b", AnyValue.mk 2)] .absent 0).arguments
      = [("a", AnyValue.mk 1), ("b", AnyValue.mk 2)] :=
  (produce_coerces_containers [Content.textC { text := "Hello" }] "i" "n"
    [("a", AnyValue.mk 1), ("b", AnyValue.mk 2)] [("k", AnyValue.mk 3)]
    .absent 0 (by decide) (by decide)).2.2.1

/-- No event of the non-terminal body of a trace is terminal, an abort
or a completion. -/
theorem traceBody_flags (mid : String) (chunks : List String)
    (updates : Nat) :
    ∀ e ∈ traceBody mid chunks updates,
      e.isTerminal = false ∧ e.isAbort = false ∧ e.isCompletion = false := by
  intro e he
  rcases List.mem_cons.mp he with rfl | hbody
  · exact ⟨rfl, rfl, rfl⟩
  rcases List.mem_append.mp hbody with hprog | hupd
  · obtain ⟨c, _, rfl⟩ := List.mem_map.mp hprog
    exact ⟨rfl, rfl, rfl⟩
  · have hupd2 := List.eq_of_mem_replicate hupd
    subst hupd2
    exact ⟨rfl, rfl, rfl⟩

/-- The terminal event of any outcome is terminal. -/
theorem terminalEventOf_terminal (mid : String)
    (outcome : Absential String) :
    (terminalEventOf mid outcome).isTerminal = true := by
  cases outcome <;> rfl

/-- A concrete user message used in closed statements. -/
def um0 : UserMessage :=
  { role := Role.User, timestamp := dt0, content := [] }

/-- C7: equality and hashing are structural — the modelled field-tuple
comparison holds exactly when all fields are equal (so instances built
from equal field values are equal and ones with differing field values
are unequal), and the hash is a function of the field values alone. -/
theorem structural_eq_hash (a b : UserMessage) (x y : TextContent) :
    (UserMessage.eqPy a b = true ↔ a = b) ∧
    (a = b → UserMessage.hashPy a = UserMessage.hashPy b) ∧
    (TextContent.eqPy x y = true ↔ x = y) ∧
    (x = y → TextContent.hashPy x = TextContent.hashPy y) := by
  refine ⟨?_, fun h => h ▸ rfl, ?_, fun h => h ▸ rfl⟩
  · cases a; cases b
    simp [UserMessage.eqPy, UserMessage.mk.injEq, Bool.and_eq_true,
      decide_eq_true_eq, and_assoc]
  · cases x; cases y
    simp [TextContent.eqPy, TextContent.mk.injEq, Bool.and_eq_true,
      decide_eq_true_eq]

/-- C7 witness at concrete instances. -/
theorem structural_eq_hash_witness :
    UserMessage.eqPy um0 um0 = true ∧
    UserMessage.hashPy um0 = UserMessage.hashPy um0 := by
  have h := structural_eq_hash um0 um0 { text := "Hello" } { text := "Hello" }
  exact ⟨h.1.mpr rfl, h.2.1 rfl⟩

/-- C8: `access_invoker` for a name registered in no ensemble returns
the absence marker — in particular for every name on an empty registry —
and never raises (the operation is a total function into `Absential`). -/
theorem access_invoker_unknown_absent (reg : InvokerRegistry)
    (name : String) (h : name ∉ reg.registeredNames) :
    reg.access_invoker name = Absential.absent ∧
    (InvokerRegistry.mk []).access_invoker name = Absential.absent := by
  constructor
  · show accessInvokerIn reg.ensembles name = Absential.absent
    apply accessInvokerIn_eq_absent
    intro e he hm
    apply h
    simp only [InvokerRegistry.registeredNames, List.mem_flatMap]
    exact ⟨e, he, hm⟩
  · rfl

/-- A concrete invoker used in closed statements. -/
def addInvoker : Invoker :=
  { name := "add", invocableId := 0, arguments_schema := [],
    ensembleName := "math" }

/-- A concrete ensemble used in closed statements. -/
def mathEnsemble : Ensemble :=
  { name := "math", invokers := [("add", addInvoker)],
    configuration := [], connection := .absent }

/-- A concrete one-ensemble registry used in closed statements. -/
def reg0 : InvokerRegistry := { ensembles := [mathEnsemble] }

/-- C8 witness: a registry holding only the "math" ensemble with
invoker "add" returns the absence marker for "subtract". -/
theorem access_invoker_unknown_absent_witness :
    reg0.access_invoker "subtract" = Absential.absent ∧
    (InvokerRegistry.mk []).access_invoker "subtract" = Absential.absent :=
  access_invoker_unknown_absent reg0 "subtract" (by decide)

/-- C9: every legal event trace for one `message_id` starts with the
allocation event, ends with a terminal event (completion or abort), has
no event after the terminal one (only the last event is terminal, and
exactly one event of the trace is terminal), and a failure outcome
yields exactly one abort event and no completion event. -/
theorem event_stream_shape (mid : String) (chunks : List String)
    (updates : Nat) (outcome : Absential String) :
    (legalTrace mid chunks updates outcome).head? =
      some (ConversationEvent.allocationEv { message_id := mid }) ∧
    (∃ last, (legalTrace mid chunks updates outcome).getLast?
        = some last ∧ last.isTerminal = true) ∧
    (∀ e ∈ (legalTrace mid chunks updates outcome).dropLast,
      e.isTerminal = false) ∧
    ((legalTrace mid chunks updates outcome).filter
        (fun e => e.isTerminal)).length = 1 ∧
    (∀ err, outcome = Absential.present err →
      ((legalTrace mid chunks updates outcome).filter
          ConversationEvent.isAbort).length = 1 ∧
      ((legalTrace mid chunks updates outcome).filter
          ConversationEvent.isCompletion).length = 0) := by
  have hflags := traceBody_flags mid chunks updates
  refine ⟨rfl, ?_, ?_, ?_, ?_⟩
  · refine ⟨terminalEventOf mid outcome, ?_, terminalEventOf_terminal mid outcome⟩
    show (traceBody mid chunks updates ++
        [terminalEventOf mid outcome]).getLast? = _
    exact List.getLast?_concat _
  · show ∀ e ∈ (traceBody mid chunks updates ++
        [terminalEventOf mid outcome]).dropLast, e.isTerminal = false
    rw [List.dropLast_concat]
    exact fun e he => (hflags e he).1
  · show ((traceBody mid chunks updates ++
        [terminalEventOf mid outcome]).filter
          (fun e => e.isTerminal)).length = 1
    rw [List.filter_append]
    have h1 : (traceBody mid chunks updates).filter
        (fun e => e.isTerminal) = [] :=
      List.filter_eq_nil_iff.mpr (fun e he => by simp [(hflags e he).1])
    rw [h1]
    simp [List.filter, terminalEventOf_terminal]
  · intro err hout
    subst hout
    constructor
    · show ((traceBody mid chunks updates ++
          [terminalEventOf mid (Absential.present err)]).filter
            ConversationEvent.isAbort).length = 1
      rw [List.filter_append]
      have h1 : (traceBody mid chunks updates).filter
          ConversationEvent.isAbort = [] :=
        List.filter_eq_nil_iff.mpr (fun e he => by simp [(hflags e he).2.1])
      rw [h1]
      rfl
    · show ((traceBody mid chunks updates ++
          [terminalEventOf mid (Absential.present err)]).filter
            ConversationEvent.isCompletion).length = 0
      rw [List.filter_append]
      have h1 : (traceBody mid chunks updates).filter
          ConversationEvent.isCompletion = [] :=
        List.filter_eq_nil_iff.mpr (fun e he => by simp [(hflags e he).2.2])
      rw [h1]
      rfl

/-- C9 witness at a concrete failing stream. -/
theorem event_stream_shape_witness :
    ((legalTrace "m" ["c1"] 1 (Absential.present "boom")).filter
        ConversationEvent.isAbort).length = 1 ∧
    ((legalTrace "m" ["c1"] 1 (Absential.present "boom")).filter
        ConversationEvent.isCompletion).length = 0 :=
  (event_stream_shape "m" ["c1"] 1
    (Absential.present "boom")).2.2.2.2 "boom" rfl

/-- Construction of a `TextContent` supplying only `text`, the other
field taking its declared default. -/
def TextContent.ofText (text : String) : TextContent := { text := text }

/-- Construction of a `PictureContent` supplying `content_id` and
`mime_type` only, `source_location` taking its declared default. -/
def PictureContent.ofIdMime (content_id mime_type : String) :
    PictureContent :=
  { content_id := content_id, mime_type := mime_type }

/-- C10: constructing a `TextContent` with only `text` yields
`mime_type = 'text/plain'`, and constructing a `PictureContent` without
`source_location` yields the absence marker for it, while the fields
without declared defaults are stored exactly as supplied. -/
theorem content_constructor_defaults (text cid mt : String) :
    (TextContent.ofText text).mime_type = "text/plain" ∧
    (TextContent.ofText text).text = text ∧
    (PictureContent.ofIdMime cid mt).source_location = Absential.absent ∧
    (PictureContent.ofIdMime cid mt).content_id = cid ∧
    (PictureContent.ofIdMime cid mt).mime_type = mt :=
  ⟨rfl, rfl, rfl, rfl, rfl⟩

end Converser
